import Mathlib

/-!
Shallow embedding of the data-representation and batching pipeline of the
`deep_qa` repository (module `deep_qa.data`): the `Field` hierarchy
(`LabelField`, `IndexField`, `TagField`, `ListField`), `Instance`, and
`Dataset`.  Python dictionaries are modelled as association lists with
insertion-order semantics, numpy arrays as lists of integers, and every
fallible code path (KeyError, TypeError, IndexError, AssertionError, ...)
as an `Except String` computation whose error string names the Python
exception raised at that point.
-/

namespace DeepQa

/-- Python label values: `LabelField` accepts either a string or an int. -/
inductive PyLabel where
  | str (s : String)
  | int (n : Int)
deriving DecidableEq, Repr

/-- Values appearing in a padding-length mapping handed to `pad`.  They are
ints on every intended path, but `Dataset.as_arrays` can also store a whole
override sub-dictionary (with optional int values) in such a slot, so the
value type is the union of the two. -/
inductive PyLen where
  | int (n : Int)
  | dict (d : List (String × Option Int))
deriving DecidableEq, Repr

/-- A numpy array produced by `pad`: one- or two-dimensional. -/
inductive PyArray where
  | vec (xs : List Int)
  | mat (xss : List (List Int))
deriving DecidableEq, Repr

/-- The Python value returned by a `pad` method: either a bare numpy array or
a Python list of arrays.  The `Field.pad` contract in `field.py` documents
that a list is always returned; keeping both shapes lets the embedding record
what each concrete variant actually returns. -/
inductive PadResult where
  | arr (a : PyArray)
  | list (arrays : List PyArray)
deriving DecidableEq, Repr

/-- The concrete runtime class of a field (`field.__class__`). -/
inductive FieldKind where
  | label
  | index
  | tag
  | list
deriving DecidableEq, Repr

/-- External `Vocabulary` contract: `get_token_index(token, namespace)`
returns a non-negative id, deterministically. -/
def Vocabulary : Type := PyLabel → String → Nat

/-- Python dict lookup (`d[k]` / `d.get(k)`), as an `Option`. -/
def dictGet (d : List (String × α)) (k : String) : Option α :=
  (d.find? (fun p => p.1 == k)).map (fun p => p.2)

/-- Python dict assignment `d[k] = v`: replaces in place (keeping the slot
position) when the key exists, appends otherwise. -/
def dictSet (d : List (String × α)) (k : String) (v : α) : List (String × α) :=
  if (d.find? (fun p => p.1 == k)).isSome then
    d.map (fun p => if p.1 == k then (k, v) else p)
  else
    d ++ [(k, v)]

/-- Python `defaultdict(list)` append: `d[k].append(v)`. -/
def dictAppend (d : List (String × List α)) (k : String) (v : α) :
    List (String × List α) :=
  match dictGet d k with
  | Option.none => d ++ [(k, [v])]
  | some vs => dictSet d k (vs ++ [v])

/-- Effectful map over a list, stopping at the first error (the semantics of
a Python loop or comprehension whose body may raise). -/
def listMapE (g : α → Except ε β) : List α → Except ε (List β)
  | [] => Except.ok []
  | x :: xs => do
      let y ← g x
      let ys ← listMapE g xs
      Except.ok (y :: ys)

/-- The four concrete `Field` variants of `deep_qa.data.fields`, with the
exact constructor state each Python class carries:
`LabelField(_label, _label_namespace, _label_id)`,
`IndexField(_index, _sequence_field)`,
`TagField(_tags, _sequence_field, _tag_namespace, _indexed_tags)`,
`ListField(_field_list)`.  A sequence-field reference is `Option` because
`empty_field` constructs fields whose reference is Python `None`. -/
inductive Field where
  | labelField (label : PyLabel) (labelNamespace : String) (labelId : Option Int)
  | indexField (index : Int) (sequenceField : Option Field)
  | tagField (tags : List String) (sequenceField : Option Field)
      (tagNamespace : String) (indexedTags : Option (List Nat))
  | listField (fieldList : List Field)

/-- Runtime class of a field. -/
def Field.kind : Field → FieldKind
  | .labelField .. => .label
  | .indexField .. => .index
  | .tagField .. => .tag
  | .listField .. => .list

def errKey (k : String) : String := "KeyError: " ++ k

def errTypeInt : String := "TypeError: an int is required"

def errNegDim : String := "ValueError: negative dimensions are not allowed"

def errIndexOut : String := "IndexError: index out of range"

def errIndexEmpty : String := "IndexError: list index out of range"

def errIsinstance : String :=
  "TypeError: isinstance arg 2 must be a type or a tuple of types"

def errNestedList : String := "RuntimeError: Nested ListFields are not implemented"

def errNoneVal : String := "TypeError: NoneType value used"

def errAttrNone : String := "AttributeError: NoneType has no such attribute"

def errAttrSeqLen : String := "AttributeError: object has no attribute sequence_length"

def errSeqLenArgs : String :=
  "TypeError: sequence_length takes 1 positional argument but 2 were given"

def errMaxEmpty : String := "ValueError: max of empty sequence"

/-- Read an int out of a `PyLen` slot (a dict value where an int is expected
raises a TypeError downstream in Python). -/
def asInt : PyLen → Except String Int
  | .int n => Except.ok n
  | .dict _ => Except.error errTypeInt

/-- Look a key up in a padding-length mapping, requiring an int. -/
def getLenInt (plens : List (String × PyLen)) (k : String) : Except String Int :=
  match dictGet plens k with
  | Option.none => Except.error (errKey k)
  | some v => asInt v

/-- A zero vector of length `n` with a single 1 written at position `i`. -/
def oneHotVec (n : Nat) (i : Nat) : List Int :=
  (List.range n).map (fun j => if j = i then 1 else 0)

/-- Semantics of `a = numpy.zeros(n); a[i] = 1` for an int index `i`:
negative dimensions are rejected by `zeros`, a negative index wraps around
(numpy indexing), and an out-of-bounds index raises. -/
def oneHotAssign (n : Int) (i : Int) : Except String (List Int) :=
  if n < 0 then Except.error errNegDim
  else if 0 ≤ i then
    if i < n then Except.ok (oneHotVec n.toNat i.toNat) else Except.error errIndexOut
  else if 0 ≤ i + n then Except.ok (oneHotVec n.toNat (i + n).toNat)
  else Except.error errIndexOut

/-- Modelled from the spec: `pad_sequence_to_length` lives in
`deep_qa/common/util.py`, which is not among the sources here.  Spec section
4.5 describes its use in `TagField.pad` as right-padding (appending) the
sequence with the default value up to the desired length, and section 4.6
describes the same appending behaviour for `ListField.pad`. -/
def padSequenceToLength (xs : List α) (desired : Int) (default : α) : List α :=
  xs ++ List.replicate (desired.toNat - xs.length) default

/-- `LabelField.pad`: builds `numpy.zeros(padding_lengths[num_labels])`, sets
position `_label_id` to 1 and returns a one-element Python list.  When
`_label_id` is Python `None`, the numpy assignment `a[None] = 1` broadcasts
over a new axis and sets every entry of the array to 1. -/
def labelPad (labelId : Option Int) (plens : List (String × PyLen)) :
    Except String PadResult := do
  let n ← getLenInt plens "num_labels"
  match labelId with
  | Option.none =>
      if n < 0 then Except.error errNegDim
      else Except.ok (.list [.vec (List.replicate n.toNat 1)])
  | some i => do
      let v ← oneHotAssign n i
      Except.ok (.list [.vec v])

/-- `IndexField.pad`: one-hot vector of length `padding_lengths[num_options]`
with position `_index` set to 1, returned as a bare numpy array (not wrapped
in a list). -/
def indexPad (index : Int) (plens : List (String × PyLen)) :
    Except String PadResult := do
  let n ← getLenInt plens "num_options"
  let v ← oneHotAssign n index
  Except.ok (.arr (.vec v))

/-- Semantics of `one_hot_tag = [0] * num_tags; one_hot_tag[tag] = 1` for a
non-negative tag id: a Python list assignment raises IndexError when the id
is not below the list length (a non-positive width gives an empty list). -/
def oneHotList (width : Int) (tag : Nat) : Except String (List Int) :=
  if (tag : Int) < width then Except.ok (oneHotVec width.toNat tag)
  else Except.error errIndexOut

/-- `TagField.pad`: right-pads `_indexed_tags` with the sentinel id 0 up to
`padding_lengths[num_tokens]`, one-hot encodes every position into a row of
width `padding_lengths[num_tags]` (looked up inside the loop), and returns
the matrix as a bare numpy array (not wrapped in a list). -/
def tagPad (indexedTags : Option (List Nat)) (plens : List (String × PyLen)) :
    Except String PadResult := do
  let desired ← getLenInt plens "num_tokens"
  let tags ← match indexedTags with
    | Option.none => Except.error errNoneVal
    | some ts => Except.ok ts
  let padded := padSequenceToLength tags desired 0
  let rows ← listMapE (fun tag => do
      let width ← getLenInt plens "num_tags"
      oneHotList width tag) padded
  Except.ok (.arr (.mat rows))

/-- The `empty_field` method of each variant: `LabelField(0, labels, False)`,
`IndexField(0, None)`, an empty already-indexed `TagField`, and a
RuntimeError for `ListField` (nested lists are unsupported). -/
def Field.empty_field : Field → Except String Field
  | .labelField .. => Except.ok (.labelField (.int 0) "labels" (some 0))
  | .indexField .. => Except.ok (.indexField 0 Option.none)
  | .tagField .. => Except.ok (.tagField [] Option.none "tags" (some []))
  | .listField .. => Except.error errNestedList

/-- The `pad` of the field produced by `empty_field` of a field of the given
variant, written out per variant (each `empty_field` result is a fixed leaf
constructor, so its `pad` is one of the leaf pads below).  Used to pad the
element count of a `ListField` without recursing into freshly built clones. -/
def emptyFieldPad (f : Field) (plens : List (String × PyLen)) :
    Except String PadResult :=
  match f with
  | .labelField .. => labelPad (some 0) plens
  | .indexField .. => indexPad 0 plens
  | .tagField .. => tagPad (some []) plens
  | .listField .. => Except.error errNestedList

/-- Pads of the `need` empty-field clones appended by `ListField.pad`. -/
def emptyPadList (f : Field) (plens : List (String × PyLen)) :
    Nat → Except String (List PadResult)
  | 0 => Except.ok []
  | n + 1 => do
      let p ← emptyFieldPad f plens
      let ps ← emptyPadList f plens n
      Except.ok (p :: ps)

mutual

/-- The `pad` method of each concrete variant.  The `ListField` case follows
`list_field.py`: pad the element count up to `padding_lengths[num_fields]`
with `empty_field()` clones of the first element, call `pad` on every element
with the full mapping, then hit
`isinstance(padded_fields[0], [list, tuple])` — whose second argument is a
Python list, not a type or tuple of types, so this line raises a TypeError
unconditionally once reached. -/
def Field.pad : Field → List (String × PyLen) → Except String PadResult
  | .labelField _ _ labelId, plens => labelPad labelId plens
  | .indexField index _, plens => indexPad index plens
  | .tagField _ _ _ indexedTags, plens => tagPad indexedTags plens
  | .listField fieldList, plens => do
      let numFields ← getLenInt plens "num_fields"
      let first ← match fieldList with
        | [] => Except.error errIndexEmpty
        | f :: _ => Except.ok f
      let need := numFields.toNat - fieldList.length
      let _ ← if 0 < need then
          (Field.empty_field first).map (fun _ => ())
        else Except.ok ()
      let _ ← Field.padList fieldList plens
      let _ ← emptyPadList first plens need
      Except.error errIsinstance

/-- Pads of the original elements of a `ListField`, in list order. -/
def Field.padList : List Field → List (String × PyLen) → Except String (List PadResult)
  | [], _ => Except.ok []
  | f :: fs, plens => do
      let p ← Field.pad f plens
      let ps ← Field.padList fs plens
      Except.ok (p :: ps)

end

/-- Maximum over `x[key] if key in x else 0` for the given lengths dicts. -/
def maxOverKey (key : String) (fieldLengths : List (List (String × Int))) : Int :=
  fieldLengths.foldl (fun acc x => max acc ((dictGet x key).getD 0)) 0

mutual

/-- The `get_padding_lengths` method of each variant, per the sources:
a `LabelField` returns `num_labels = _label_id + 1` (TypeError when still
unindexed); an `IndexField` calls `sequence_length()` on its owning sequence
field (only `ListField`, the one `SequenceField` subclass in the sources,
has a zero-argument override; `None` or a non-sequence owner raises); a
`TagField` calls `sequence_length(get_padding_lengths())` with an argument,
which no class in the sources accepts; a `ListField` returns
`num_fields = len(_field_list)` plus, for every key of the first element,
the max over all elements with missing keys read as 0. -/
def Field.get_padding_lengths : Field → Except String (List (String × Int))
  | .labelField _ _ labelId =>
      match labelId with
      | Option.none => Except.error errNoneVal
      | some i => Except.ok [("num_labels", i + 1)]
  | .indexField _ sequenceField =>
      match sequenceField with
      | Option.none => Except.error errAttrNone
      | some (.listField fieldList) =>
          Except.ok [("num_options", (fieldList.length : Int))]
      | some _ => Except.error errAttrSeqLen
  | .tagField _ sequenceField _ _ =>
      match sequenceField with
      | Option.none => Except.error errAttrNone
      | some (.listField _) => Except.error errSeqLenArgs
      | some _ => Except.error errAttrSeqLen
  | .listField fieldList => do
      let fieldLengths ← Field.getPaddingLengthsList fieldList
      let base := [("num_fields", (fieldList.length : Int))]
      match fieldLengths with
      | [] => Except.error errIndexEmpty
      | fl0 :: _ =>
          Except.ok (fl0.foldl
            (fun acc p => dictSet acc p.1 (maxOverKey p.1 fieldLengths)) base)

/-- The `get_padding_lengths` results of the elements of a `ListField`. -/
def Field.getPaddingLengthsList : List Field → Except String (List (List (String × Int)))
  | [] => Except.ok []
  | f :: fs => do
      let l ← Field.get_padding_lengths f
      let ls ← Field.getPaddingLengthsList fs
      Except.ok (l :: ls)

end

mutual

/-- The state of a field after its `index(vocab)` method ran: a `LabelField`
stores the id of its label, a `TagField` the ids of its tags, the base-class
`index` inherited by `IndexField` is a no-op, and a `ListField` indexes every
element.  Every `index` method in the sources returns Python `None`; the
return value is modelled where it is consumed, in `Instance.index_fields`. -/
def Field.index : Field → Vocabulary → Field
  | .labelField label ns _, vocab => .labelField label ns (some ((vocab label ns : Nat) : Int))
  | .indexField i s, _ => .indexField i s
  | .tagField tags s ns _, vocab =>
      .tagField tags s ns (some (tags.map (fun t => vocab (.str t) ns)))
  | .listField fieldList, vocab => .listField (Field.indexList fieldList vocab)

/-- Elementwise `index` over the elements of a `ListField`. -/
def Field.indexList : List Field → Vocabulary → List Field
  | [], _ => []
  | f :: fs, vocab => Field.index f vocab :: Field.indexList fs vocab

end

mutual

/-- Modelled from the spec: the guard `isinstance(field, UnindexedField)` in
`Instance.index_fields`; the class `UnindexedField` is not among the sources
here.  Spec section 4.7 says the replacement applies to every field still
needing indexing, which per the sources means an unresolved `_label_id` for
a `LabelField` and unresolved `_indexed_tags` for a `TagField`; an
`IndexField` is always pre-indexed, and a `ListField` needs indexing when
some element does. -/
def Field.isUnindexed : Field → Bool
  | .labelField _ _ labelId => labelId.isNone
  | .indexField .. => false
  | .tagField _ _ _ indexedTags => indexedTags.isNone
  | .listField fieldList => Field.anyUnindexed fieldList

/-- Whether some element of a field list still needs indexing. -/
def Field.anyUnindexed : List Field → Bool
  | [] => false
  | f :: fs => Field.isUnindexed f || Field.anyUnindexed fs

end

/-- `ListField.__init__`: asserts that the set of runtime classes of the
elements has exactly one member, then stores the list. -/
def listFieldInit (fieldList : List Field) : Except String Field :=
  if ((fieldList.map Field.kind).dedup).length = 1 then
    Except.ok (.listField fieldList)
  else
    Except.error "AssertionError: ListFields must contain a single field type"

/-- `LabelField.__init__`: with `index_labels=True` the id starts unresolved;
with `index_labels=False` the label must be an int (assertion) and becomes
the id directly. -/
def labelFieldInit (label : PyLabel) (labelNamespace : String) (indexLabels : Bool) :
    Except String Field :=
  if indexLabels then
    Except.ok (.labelField label labelNamespace Option.none)
  else
    match label with
    | .int n => Except.ok (.labelField label labelNamespace (some n))
    | .str _ =>
        Except.error "AssertionError: Labels must be ints if you want to skip indexing"

/-- An `Instance` owns a mapping from field name to field.  A slot holds
`Option Field` because the mapping can come to hold Python `None`:
`Instance.index_fields` assigns `self._fields[key] = field.index(vocab)`,
and every `index` method returns `None`. -/
structure Instance where
  fields : List (String × Option Field)

/-- `Instance.index_fields(vocab)`: for every field still needing indexing,
the source assigns the return value of `field.index(vocab)` back into the
mapping.  The call mutates the field object, but its return value — which is
what the slot receives — is Python `None`, so the slot ends up `None`.
Fields not needing indexing (and slots already `None`, which no class test
matches) are left untouched. -/
def Instance.index_fields (inst : Instance) (vocab : Vocabulary) : Instance :=
  ⟨inst.fields.map (fun kv =>
    match kv.2 with
    | some f =>
        if Field.isUnindexed f then
          let _mutated := Field.index f vocab
          (kv.1, (Option.none : Option Field))
        else kv
    | Option.none => kv)⟩

/-- `Instance.get_padding_lengths`: keys each field name to that field's
padding-length mapping, in field order. -/
def Instance.get_padding_lengths (inst : Instance) :
    Except String (List (String × List (String × Int))) :=
  listMapE (fun kv => do
      match kv.2 with
      | Option.none => Except.error errAttrNone
      | some f => do
          let l ← Field.get_padding_lengths f
          Except.ok (kv.1, l)) inst.fields

/-- `Instance.pad`: pads each field with its per-field sub-mapping, read with
`padding_lengths.get(key, an empty dict)`. -/
def Instance.pad (inst : Instance) (plens : List (String × List (String × PyLen))) :
    Except String (List (String × PadResult)) :=
  listMapE (fun kv => do
      let fieldLengths := (dictGet plens kv.1).getD []
      match kv.2 with
      | Option.none => Except.error errAttrNone
      | some f => do
          let r ← Field.pad f fieldLengths
          Except.ok (kv.1, r)) inst.fields

/-- A `Dataset` owns an ordered list of instances. -/
structure Dataset where
  instances : List Instance

/-- Python list slicing `xs[:m]` for an int bound: a non-negative bound takes
the first `m` elements, a negative bound drops that many from the end. -/
def pySliceTo (xs : List α) (m : Int) : List α :=
  if 0 ≤ m then xs.take m.toNat else xs.take (xs.length - (-m).toNat)

/-- Result of `Dataset.truncate`: the source either returns `self` (same
object, recorded by `sameObject = true`) or builds a fresh `Dataset`. -/
structure TruncateResult where
  sameObject : Bool
  dataset : Dataset

/-- `Dataset.truncate(max_instances)`: returns `self` when the instance count
is already within the bound, otherwise copies the instance list
(`[i for i in self.instances]`) and builds a new dataset over the slice
`new_instances[:max_instances]`. -/
def Dataset.truncate (d : Dataset) (maxInstances : Int) : TruncateResult :=
  if (d.instances.length : Int) ≤ maxInstances then ⟨true, d⟩
  else ⟨false, ⟨pySliceTo (d.instances.map (fun i => i)) maxInstances⟩⟩

/-- Python comparison of two lists of ints (`<` lexicographic, used by
`list.sort` on the decorated `[lengths..., instance]` rows, sliced to their
length prefix): this is the `is less than or equal` version. -/
def pyLexLe : List Int → List Int → Bool
  | [], _ => true
  | _ :: _, [] => false
  | a :: as, b :: bs => if a < b then true else if b < a then false else pyLexLe as bs

/-- Lookup `padding_lengths[field_name][padding_key]` with Python KeyError
semantics. -/
def lookupLen (plens : List (String × List (String × Int)))
    (fieldName paddingKey : String) : Except String Int :=
  match dictGet plens fieldName with
  | Option.none => Except.error (errKey fieldName)
  | some fieldLens =>
      match dictGet fieldLens paddingKey with
      | Option.none => Except.error (errKey paddingKey)
      | some v => Except.ok v

/-- `Dataset.sort_by_padding(sorting_keys, padding_noise)` at
`padding_noise = 0.0` (the noise branch, guarded by `padding_noise > 0.0`,
is skipped): decorate each instance with the list of its lengths at the
sorting keys, sort the decorated rows by that length-list key — Python
`list.sort` is stable and compares int lists lexicographically, which is
what `List.mergeSort` with `pyLexLe` computes — and keep the instances. -/
def Dataset.sort_by_padding (d : Dataset) (sortingKeys : List (String × String)) :
    Except String Dataset := do
  let decorated ← listMapE (fun inst => do
      let plens ← Instance.get_padding_lengths inst
      let keys ← listMapE (fun fk => lookupLen plens fk.1 fk.2) sortingKeys
      Except.ok (keys, inst)) d.instances
  let sorted := decorated.mergeSort (fun a b => pyLexLe a.1 b.1)
  Except.ok ⟨sorted.map (fun x => x.2)⟩

/-- The assignment loop of `Dataset.padding_lengths`: for each aggregated
field (in first-seen order) and each padding key of its first lengths dict,
the source executes `padding_lengths[field_name][padding_key] = max_value`
— but `padding_lengths` is the plain dict `\x7b\x7d` created at the top of
the method, so the first such assignment raises `KeyError(field_name)`
(the inner dict was never created).  The right-hand side max is computed
before the failing subscript and cannot itself raise.  When no field has a
padding key the loop body never runs and the empty dict is returned. -/
def paddingAssignLoop :
    List (String × List (List (String × Int))) →
    Except String (List (String × List (String × Int)))
  | [] => Except.ok []
  | (fieldName, fieldLengths) :: rest =>
      match fieldLengths with
      | [] => Except.error errIndexEmpty
      | fl0 :: _ =>
          match fl0 with
          | [] => paddingAssignLoop rest
          | _ :: _ => Except.error (errKey fieldName)

/-- `Dataset.padding_lengths()`: collects every instance's lengths, returns
the empty mapping for an empty dataset, aggregates the per-field lengths
dicts into a `defaultdict(list)` in first-seen key order, then runs the
assignment loop above. -/
def Dataset.padding_lengths (d : Dataset) :
    Except String (List (String × List (String × Int))) := do
  let allInstanceLengths ← listMapE Instance.get_padding_lengths d.instances
  if allInstanceLengths.isEmpty then
    Except.ok []
  else
    let allFieldLengths := allInstanceLengths.foldl
      (fun acc il => il.foldl (fun acc2 p => dictAppend acc2 p.1 p.2) acc) []
    paddingAssignLoop allFieldLengths

/-- The `padding_lengths` argument of `Dataset.as_arrays`: Python `None`
(replaced by a `defaultdict(dict)`) or a caller-supplied plain dict of
optional ints keyed by field name then padding key. -/
inductive Override where
  | missing
  | dict (d : List (String × List (String × Option Int)))

/-- Evaluate `padding_lengths[field_name]` on the override: a plain dict
raises KeyError on an absent field name, the defaultdict auto-creates an
empty inner dict. -/
def overrideGetField : Override → String → Except String (List (String × Option Int))
  | .missing, _ => Except.ok []
  | .dict d, k =>
      match dictGet d k with
      | Option.none => Except.error (errKey k)
      | some v => Except.ok v

/-- Evaluate `padding_lengths[padding_key]` — the top-level subscript on the
override that the source performs with a padding key: a plain dict raises
KeyError unless the padding key happens to be a top-level (field-name) key,
in which case the value produced is a whole inner dict, not an int; the
defaultdict auto-creates an empty dict. -/
def overrideGetTop : Override → String → Except String PyLen
  | .missing, _ => Except.ok (.dict [])
  | .dict d, k =>
      match dictGet d k with
      | Option.none => Except.error (errKey k)
      | some v => Except.ok (.dict v)

/-- Nested assignment `lengths_to_use[field_name][padding_key] = v` on the
`defaultdict(dict)` accumulator. -/
def dictSetNested (d : List (String × List (String × PyLen))) (fn pk : String)
    (v : PyLen) : List (String × List (String × PyLen)) :=
  match dictGet d fn with
  | Option.none => d ++ [(fn, [(pk, v)])]
  | some inner => dictSet d fn (dictSet inner pk v)

/-- The effective-lengths loop of `Dataset.as_arrays` (the override-merge
step): for every field name and padding key of the data-derived lengths, if
`padding_lengths[field_name].get(padding_key)` is not `None` the source
assigns `padding_lengths[padding_key]` — a top-level lookup of the padding
key on the override, instead of the override value
`padding_lengths[field_name][padding_key]` — else it assigns the
data-derived value. -/
def lengthsToUse (override : Override)
    (instLens : List (String × List (String × Int))) :
    Except String (List (String × List (String × PyLen))) :=
  instLens.foldlM (fun acc fnp =>
    fnp.2.foldlM (fun acc2 pkv => do
        let inner ← overrideGetField override fnp.1
        match dictGet inner pkv.1 with
        | some (some _) => do
            let ov ← overrideGetTop override pkv.1
            Except.ok (dictSetNested acc2 fnp.1 pkv.1 ov)
        | _ => Except.ok (dictSetNested acc2 fnp.1 pkv.1 (.int pkv.2))) acc) []

/-- `Dataset.as_arrays(padding_lengths, verbose)`: computes the data-derived
lengths, merges in the override, pads every instance, then combines the
per-field arrays.  Two further slips shape this stage:
`for field, arrays in instance.pad(...)` iterates the returned dict — which
yields its KEY STRINGS — and unpacks each key string into the two loop
variables (only a two-character field name unpacks, into its two
characters; any other length raises ValueError); and the combine step tests
`isinstance(field_array_list[0], [list, tuple])`, which raises TypeError
unconditionally because its second argument is a list.  The accumulated
per-field values are therefore single characters. -/
def Dataset.as_arrays (d : Dataset) (paddingLengths : Override) :
    Except String (List (String × List Char)) := do
  let instLens ← d.padding_lengths
  let ltu ← lengthsToUse paddingLengths instLens
  let fieldArrays ← d.instances.foldlM (fun (fa : List (String × List Char)) inst => do
      let padres ← inst.pad ltu
      padres.foldlM (fun fa2 kr =>
          match kr.1.toList with
          | [c1, c2] => Except.ok (dictAppend fa2 (String.mk [c1]) c2)
          | _ => Except.error "ValueError: wrong number of values to unpack") fa) []
  match fieldArrays with
  | [] => Except.ok []
  | _ => Except.error errIsinstance

/-! Concrete example values used by several theorems below. -/

/-- A `LabelField` constructed from the int `i` with `index_labels=False`,
so already indexed to id `i`. -/
def idxLabel (i : Int) : Field := .labelField (.int i) "labels" (some i)

/-- An instance with a single already-indexed label field named `label`. -/
def labelInst (i : Int) : Instance := ⟨[("label", some (idxLabel i))]⟩

/-- A still-unindexed string-labelled `LabelField`. -/
def exLabel : Field := .labelField (.str "yes") "labels" Option.none

/-- A pre-indexed `IndexField` with a `None` owning sequence. -/
def exIndex : Field := .indexField 0 Option.none

/-- An instance with a single already-indexed label field named `question`. -/
def questionInst : Instance := ⟨[("question", some (idxLabel 2))]⟩

/-- A five-instance dataset. -/
def exDataset5 : Dataset :=
  ⟨[labelInst 0, labelInst 1, labelInst 2, labelInst 3, labelInst 4]⟩

/-- A sequence-capable owning field of length 3 (a `ListField` of three
labels). -/
def exSeq3 : Field := .listField [idxLabel 0, idxLabel 0, idxLabel 0]

/-- A vocabulary assigning id 0 to tag `O` and id 1 to tag `B`. -/
def vocabOB : Vocabulary := fun l _ =>
  match l with
  | .str "B" => 1
  | _ => 0

/-- Sanity check: `emptyFieldPad` agrees with padding the field that
`empty_field` actually returns. -/
theorem emptyFieldPad_eq_pad (f e : Field) (plens : List (String × PyLen))
    (h : Field.empty_field f = .ok e) :
    emptyFieldPad f plens = Field.pad e plens := by
  cases f <;> simp only [Field.empty_field] at h <;>
    first
      | (cases h; rfl)
      | exact absurd h (by simp)

/-- C1: the claim fails on the code.  In the override-merge loop of
`Dataset.as_arrays` the source assigns `padding_lengths[padding_key]`
instead of `padding_lengths[field_name][padding_key]`: with the override
`question -> num_tokens -> 10` and a data-derived maximum of 3 the top-level
lookup of `num_tokens` raises KeyError instead of yielding 10.  The full
`as_arrays` call on a one-instance dataset with such an override also
raises (its `padding_lengths()` helper already fails on any non-empty
dataset), so no arrays padded to the override length are ever produced. -/
theorem C1_as_arrays_override_ignored :
    lengthsToUse (.dict [("question", [("num_tokens", some 10)])])
        [("question", [("num_tokens", 3)])]
      = .error (errKey "num_tokens") ∧
    Dataset.as_arrays ⟨[questionInst]⟩
        (.dict [("question", [("num_tokens", some 10)])])
      = .error (errKey "question") := ⟨rfl, rfl⟩

/-- C2: the claim fails on the code.  `Dataset.padding_lengths` initialises
`padding_lengths` as a plain empty dict and then executes
`padding_lengths[field_name][padding_key] = max_value`, so the first
assignment raises `KeyError(field_name)` on every non-empty dataset whose
instances report any padding key; with instances reporting per-field
lengths 3, 5 and 2 it raises KeyError instead of returning the maximum 5.
The empty-dataset case does return the empty mapping, as claimed. -/
theorem C2_padding_lengths_raises :
    Dataset.padding_lengths ⟨[labelInst 2, labelInst 4, labelInst 1]⟩
      = .error (errKey "label") ∧
    Dataset.padding_lengths ⟨[]⟩ = .ok [] ∧
    Instance.get_padding_lengths (labelInst 2)
      = .ok [("label", [("num_labels", 3)])] ∧
    Instance.get_padding_lengths (labelInst 4)
      = .ok [("label", [("num_labels", 5)])] ∧
    Instance.get_padding_lengths (labelInst 1)
      = .ok [("label", [("num_labels", 2)])] := ⟨rfl, rfl, rfl, rfl, rfl⟩

/-- C3: the first half of the claim holds — `get_padding_lengths` of a
`ListField` of two indexed labels reports `num_fields = 2` — but `pad` with
`num_fields = 3` never returns the claimed batched 3-row array: after
padding the element count and padding every element, the source reaches
`isinstance(padded_fields[0], [list, tuple])`, whose second argument is a
Python list rather than a type or tuple of types, and raises TypeError. -/
theorem C3_list_field_pad_raises :
    Field.get_padding_lengths (.listField [idxLabel 0, idxLabel 1])
      = .ok [("num_fields", 2), ("num_labels", 2)] ∧
    Field.pad (.listField [idxLabel 0, idxLabel 1])
        [("num_fields", .int 3), ("num_labels", .int 2)]
      = .error errIsinstance := ⟨rfl, rfl⟩

/-- C4: the claim fails on the code.  `Instance.index_fields` assigns
`self._fields[key] = field.index(vocab)`, and `LabelField.index` (like every
`index` method) returns Python `None`; the field name therefore ends up
bound to `None`, not to the indexed counterpart, which would have been the
label field with its id resolved to 0 as the second conjunct shows. -/
theorem C4_index_fields_binds_none :
    (Instance.index_fields ⟨[("label", some exLabel)]⟩ (fun _ _ => 0)).fields
      = [("label", Option.none)] ∧
    Field.index exLabel (fun _ _ => 0)
      = .labelField (.str "yes") "labels" (some 0) := ⟨rfl, rfl⟩

/-- C5: the claim fails on the code.  `IndexField.pad` and `TagField.pad`
return their numpy array bare (`PadResult.arr`), not wrapped in a sequence,
while `LabelField.pad` does return a one-element list — contradicting the
claim (and the `Field.pad` contract) that every variant returns a sequence
of arrays. -/
theorem C5_pad_bare_arrays :
    Field.pad (.indexField 1 Option.none) [("num_options", .int 3)]
      = .ok (.arr (.vec [0, 1, 0])) ∧
    Field.pad (.tagField ["O"] Option.none "tags" (some [0]))
        [("num_tokens", .int 1), ("num_tags", .int 1)]
      = .ok (.arr (.mat [[1]])) ∧
    Field.pad (.labelField (.int 1) "labels" (some 1)) [("num_labels", .int 3)]
      = .ok (.list [.vec [0, 1, 0]]) := ⟨rfl, rfl, rfl⟩

/-- C6: confirmed.  Indexing the tags `O, O, B` with a vocabulary mapping
`O` to 0 and `B` to 1 stores ids `[0, 0, 1]`, and padding to
`num_tokens = 4`, `num_tags = 2` appends the sentinel id 0 and one-hot
encodes each position, yielding the 4-by-2 matrix with rows
`[1,0], [1,0], [0,1]` and padding row `[1,0]`. -/
theorem C6_tag_field_end_to_end :
    Field.index (.tagField ["O", "O", "B"] (some exSeq3) "tags" Option.none) vocabOB
      = .tagField ["O", "O", "B"] (some exSeq3) "tags" (some [0, 0, 1]) ∧
    Field.pad
        (Field.index (.tagField ["O", "O", "B"] (some exSeq3) "tags" Option.none) vocabOB)
        [("num_tokens", .int 4), ("num_tags", .int 2)]
      = .ok (.arr (.mat [[1, 0], [1, 0], [0, 1], [1, 0]])) := ⟨rfl, rfl⟩

/-- C7: confirmed.  `truncate` returns the very same dataset (no copy, the
`sameObject` flag) whenever the instance count is within the bound, and
otherwise a new dataset holding exactly the first `max_instances` instances
in their original order. -/
theorem C7_truncate_first_instances (d : Dataset) (m : Nat) :
    (d.instances.length ≤ m → d.truncate (m : Int) = ⟨true, d⟩) ∧
    (m < d.instances.length → d.truncate (m : Int) = ⟨false, ⟨d.instances.take m⟩⟩) := by
  constructor
  · intro h
    have hc : (d.instances.length : Int) ≤ (m : Int) := by exact_mod_cast h
    simp [Dataset.truncate, hc]
  · intro h
    have hc : ¬ (d.instances.length : Int) ≤ (m : Int) := by
      intro hca
      exact absurd (by exact_mod_cast hca) (Nat.not_le.mpr h)
    simp [Dataset.truncate, hc, pySliceTo, List.map_id]

/-- C7 witness: on a five-instance dataset, `truncate 2` builds a new
dataset of the first two instances and `truncate 10` returns the identical
dataset object. -/
theorem C7_truncate_first_instances_witness :
    Dataset.truncate exDataset5 2 = ⟨false, ⟨[labelInst 0, labelInst 1]⟩⟩ ∧
    Dataset.truncate exDataset5 10 = ⟨true, exDataset5⟩ := by
  constructor
  · have h := (C7_truncate_first_instances exDataset5 2).2 (by decide)
    simpa [exDataset5] using h
  · exact (C7_truncate_first_instances exDataset5 10).1 (by decide)

/-- C9: confirmed.  A `ListField` over elements of two different concrete
variants fails the construction-time assertion (the set of element classes
does not have exactly one member), and a `LabelField` built from a string
with `index_labels=False` fails its own construction-time assertion. -/
theorem C9_construction_validation (fl : List Field) (f g : Field)
    (hf : f ∈ fl) (hg : g ∈ fl) (hk : Field.kind f ≠ Field.kind g)
    (s ns : String) :
    (∃ e, listFieldInit fl = .error e) ∧
    (∃ e, labelFieldInit (.str s) ns false = .error e) := by
  have hne : ((fl.map Field.kind).dedup).length ≠ 1 := by
    intro h1
    obtain ⟨x, hx⟩ := List.length_eq_one.mp h1
    have hfm : Field.kind f ∈ (fl.map Field.kind).dedup := by
      rw [List.mem_dedup]
      exact List.mem_map_of_mem _ hf
    have hgm : Field.kind g ∈ (fl.map Field.kind).dedup := by
      rw [List.mem_dedup]
      exact List.mem_map_of_mem _ hg
    rw [hx] at hfm hgm
    simp only [List.mem_singleton] at hfm hgm
    exact hk (hfm.trans hgm.symm)
  refine ⟨⟨"AssertionError: ListFields must contain a single field type", ?_⟩,
    ⟨"AssertionError: Labels must be ints if you want to skip indexing", rfl⟩⟩
  simp [listFieldInit, hne]

/-- C9 witness: a label field and an index field mixed in one list, and the
string label `yes` with indexing disabled, both rejected at construction. -/
theorem C9_construction_validation_witness :
    (exLabel ∈ [exLabel, exIndex] ∧ exIndex ∈ [exLabel, exIndex] ∧
      Field.kind exLabel ≠ Field.kind exIndex) ∧
    (∃ e, listFieldInit [exLabel, exIndex] = .error e) ∧
    (∃ e, labelFieldInit (.str "yes") "labels" false = .error e) := by
  have h := C9_construction_validation [exLabel, exIndex] exLabel exIndex
    (by simp) (by simp) (by decide) "yes" "labels"
  exact ⟨⟨by simp, by simp, by decide⟩, h.1, h.2⟩

/-- C10: confirmed.  The homogeneity assertion demands exactly one element
class; an empty field list has zero distinct classes, so construction fails
just as for heterogeneous contents. -/
theorem C10_empty_list_field_rejected :
    listFieldInit []
      = .error "AssertionError: ListFields must contain a single field type" ∧
    ((([] : List Field).map Field.kind).dedup).length = 0 := ⟨rfl, rfl⟩

/-! Machinery for the sorting claim. -/

/-- The length an instance reports for the given field name and padding key,
when it reports one. -/
def Instance.sortKeyVal (inst : Instance) (fieldName paddingKey : String) : Option Int :=
  (Instance.get_padding_lengths inst).toOption.bind
    (fun plens => (dictGet plens fieldName).bind
      (fun fieldLens => dictGet fieldLens paddingKey))

/-- Reduction of an `Except` bind on a success value. -/
theorem bind_ok_eq {ε α β : Type} (a : α) (f : α → Except ε β) :
    (Except.ok a >>= f) = f a := rfl

/-- Reduction of an `Except` bind on an error value. -/
theorem bind_error_eq {ε α β : Type} (e : ε) (f : α → Except ε β) :
    ((Except.error e : Except ε α) >>= f) = Except.error e := rfl

/-- Reduction of `Except.toOption` on a success value. -/
theorem toOption_ok {ε α : Type} (a : α) :
    (Except.ok a : Except ε α).toOption = some a := rfl

/-- Reduction of `Except.toOption` on an error value. -/
theorem toOption_error {ε α : Type} (e : ε) :
    (Except.error e : Except ε α).toOption = Option.none := rfl

/-- Pointwise-successful effectful map is an ordinary map. -/
theorem listMapE_ok {α β ε : Type} {g : α → Except ε β} {f : α → β} :
    ∀ {l : List α}, (∀ x ∈ l, g x = .ok (f x)) → listMapE g l = .ok (l.map f)
  | [], _ => rfl
  | x :: xs, h => by
      have hx := h x (List.mem_cons_self x xs)
      have hrest := listMapE_ok (g := g) (f := f)
        (fun y hy => h y (List.mem_cons_of_mem x hy))
      simp [listMapE, hx, hrest, bind_ok_eq]

/-- On singleton key lists, the Python list comparison is just int order. -/
theorem pyLexLe_single (x y : Int) : pyLexLe [x] [y] = decide (x ≤ y) := by
  simp only [pyLexLe]
  split_ifs with h1 h2 <;> simp <;> omega

/-- Stability of `mergeSort` phrased on filters: the sort does not disturb
the relative order of elements that are all equivalent under the comparison
(for a transitive total comparison). -/
theorem mergeSort_filter_stable {α : Type} {le : α → α → Bool}
    (htrans : ∀ a b c, le a b → le b c → le a c)
    (htotal : ∀ a b, le a b || le b a)
    (p : α → Bool) (hp : ∀ a b, p a → p b → le a b) (l : List α) :
    (l.mergeSort le).filter p = l.filter p := by
  have hpair : (l.filter p).Pairwise (fun a b => le a b) :=
    List.pairwise_of_forall_mem_list
      (fun a ha b hb => hp a b (List.of_mem_filter ha) (List.of_mem_filter hb))
  have hsub : List.Sublist (l.filter p) (l.mergeSort le) :=
    List.sublist_mergeSort htrans htotal hpair (List.filter_sublist l)
  have hfsub : List.Sublist (l.filter p) ((l.mergeSort le).filter p) := by
    have h2 := hsub.filter p
    rwa [List.filter_eq_self.mpr (fun a ha => List.of_mem_filter ha)] at h2
  have hlen : ((l.mergeSort le).filter p).length = (l.filter p).length :=
    ((List.mergeSort_perm l le).filter p).length_eq
  exact (hfsub.eq_of_length hlen.symm).symm

/-- C8: confirmed.  With a single sorting key that every instance reports
and zero padding noise, `sort_by_padding` succeeds and reorders the
instances into a permutation that is sorted ascending by the reported
length and stable: for every length value, the sub-sequence of instances
reporting that value is exactly the one of the input, in the same order. -/
theorem C8_sort_by_padding_stable (insts : List Instance) (fn pk : String)
    (h : ∀ i ∈ insts, (Instance.sortKeyVal i fn pk).isSome) :
    ∃ sorted : List Instance,
      Dataset.sort_by_padding ⟨insts⟩ [(fn, pk)] = .ok ⟨sorted⟩ ∧
      sorted.Perm insts ∧
      sorted.Pairwise (fun a b =>
        (Instance.sortKeyVal a fn pk).getD 0 ≤ (Instance.sortKeyVal b fn pk).getD 0) ∧
      (∀ n : Int,
        sorted.filter (fun i => (Instance.sortKeyVal i fn pk).getD 0 == n) =
        insts.filter (fun i => (Instance.sortKeyVal i fn pk).getD 0 == n)) := by
  classical
  let k : Instance → Int := fun i => (Instance.sortKeyVal i fn pk).getD 0
  let r : Instance → Instance → Bool := fun a b => decide (k a ≤ k b)
  have htrans : ∀ a b c, r a b → r b c → r a c := by
    intro a b c hab hbc
    simp only [r, decide_eq_true_eq] at hab hbc ⊢
    omega
  have htotal : ∀ a b, r a b || r b a := by
    intro a b
    simp only [r, Bool.or_eq_true, decide_eq_true_eq]
    omega
  -- each decoration step succeeds and produces the singleton key list
  have hdec : ∀ i ∈ insts,
      (do
        let plens ← Instance.get_padding_lengths i
        let keys ← listMapE (fun fk => lookupLen plens fk.1 fk.2) [(fn, pk)]
        Except.ok (keys, i) : Except String (List Int × Instance))
        = .ok ([k i], i) := by
    intro i hi
    have hs := h i hi
    cases hg : Instance.get_padding_lengths i with
    | error e => simp [Instance.sortKeyVal, hg, toOption_error] at hs
    | ok plens =>
      cases hfl : dictGet plens fn with
      | none => simp [Instance.sortKeyVal, hg, toOption_ok, hfl] at hs
      | some fieldLens =>
        cases hv : dictGet fieldLens pk with
        | none => simp [Instance.sortKeyVal, hg, toOption_ok, hfl, hv] at hs
        | some v =>
          have hkv : k i = v := by
            simp [k, Instance.sortKeyVal, hg, toOption_ok, hfl, hv]
          simp [hg, bind_ok_eq, listMapE, lookupLen, hfl, hv, hkv]
  have hmap : listMapE (fun inst => do
        let plens ← Instance.get_padding_lengths inst
        let keys ← listMapE (fun fk => lookupLen plens fk.1 fk.2) [(fn, pk)]
        Except.ok (keys, inst)) insts
      = .ok (insts.map (fun i => ([k i], i))) := listMapE_ok hdec
  have hmm : (insts.mergeSort r).map (fun i => ([k i], i))
      = (insts.map (fun i => ([k i], i))).mergeSort
          (fun a b => pyLexLe a.1 b.1) := by
    apply List.map_mergeSort
    intro a _ b _
    simp only [pyLexLe_single]
  refine ⟨insts.mergeSort r, ?_, ?_, ?_, ?_⟩
  · simp only [Dataset.sort_by_padding, hmap, bind_ok_eq, ← hmm, List.map_map]
    exact congrArg (fun l => (Except.ok (Dataset.mk l) : Except String Dataset))
      (List.map_id (insts.mergeSort r))
  · exact List.mergeSort_perm insts r
  · have hs := List.sorted_mergeSort htrans htotal insts
    exact hs.imp (fun hab => by
      simpa [r, decide_eq_true_eq] using hab)
  · intro n
    apply mergeSort_filter_stable htrans htotal
    intro a b ha hb
    have ha2 : k a = n := by simpa [k] using ha
    have hb2 : k b = n := by simpa [k] using hb
    simp [r, ha2, hb2]

/-- C8 witness: four instances reporting lengths 3, 5, 2, 2 under the key
pair `label`, `num_labels` all report the key, and the sort therefore
succeeds with the sorted, stable properties. -/
theorem C8_sort_by_padding_stable_witness :
    (∀ i ∈ [labelInst 2, labelInst 4, labelInst 1, labelInst 1],
      (Instance.sortKeyVal i "label" "num_labels").isSome) ∧
    (∃ sorted : List Instance,
      Dataset.sort_by_padding ⟨[labelInst 2, labelInst 4, labelInst 1, labelInst 1]⟩
          [("label", "num_labels")] = .ok ⟨sorted⟩ ∧
      sorted.Perm [labelInst 2, labelInst 4, labelInst 1, labelInst 1] ∧
      sorted.Pairwise (fun a b =>
        (Instance.sortKeyVal a "label" "num_labels").getD 0 ≤
        (Instance.sortKeyVal b "label" "num_labels").getD 0) ∧
      (∀ n : Int,
        sorted.filter
            (fun i => (Instance.sortKeyVal i "label" "num_labels").getD 0 == n) =
        [labelInst 2, labelInst 4, labelInst 1, labelInst 1].filter
            (fun i => (Instance.sortKeyVal i "label" "num_labels").getD 0 == n))) :=
  ⟨by decide, C8_sort_by_padding_stable _ _ _ (by decide)⟩

end DeepQa
